import Mathlib

set_option maxRecDepth 8000

/-- A shallow embedding of the LS-8 CPU emulator (`ls8/cpu.py`): the data
model, the ALU, the stack, subroutine and jump handlers, the dispatch
table and the fetch-decode-execute loop, together with theorems checking
the specification's claims against this embedding.

Python-level behaviour is modelled faithfully:
* registers and RAM are `bytearray`s, so storing a value outside `0..255`
  raises `ValueError`, and an out-of-range index raises `IndexError`;
* calling a method with a required positional argument missing raises
  `TypeError` before the body runs (relevant to `not_bit`, which calls
  `self.alu("NOT", reg_num)` while `alu` requires a third argument);
* integer division or modulo by zero raises `ZeroDivisionError`;
* `~x` on a non-negative integer equals `-x - 1`;
* a Python `str` never compares equal to a Python `int` (relevant to the
  `op == SHL` / `op == SHR` tests in `alu`, where `op` is a string and
  `SHL`, `SHR` are the integer opcode constants);
* an exception leaves every mutation made before the raise in place, so
  errors carry the machine state at the raise point.
The unused `MAR`/`MDR` fields (written once at construction, never read)
are omitted from the state. -/
inductive PyErr where
  | valueError
  | indexError
  | typeError
  | zeroDivisionError
  | systemExit
  | exception (msg : String)
deriving DecidableEq, Repr

/-- A Python value that can appear as the `op` argument of `alu`: either a
string tag (every call site passes one) or an int (the opcode constants
`SHL` and `SHR` that the last two branches of `alu` compare against).
Distinct constructors never compare equal, as in Python. -/
inductive PyVal where
  | str (s : String)
  | int (n : Nat)
deriving DecidableEq, Repr

namespace LS8

/-- The machine state of `CPU.__init__`: eight byte registers (`self.reg`,
a `bytearray(8)`), 256 bytes of RAM (`self.ram`, a `bytearray(256)`), the
program counter `self.PC`, the instruction register `self.IR` and the
flags register `self.FL`. -/
structure CPUState where
  reg : Fin 8 → Nat
  ram : Fin 256 → Nat
  PC : Nat
  IR : Nat
  FL : Nat

instance : DecidableEq CPUState := fun a b =>
  decidable_of_iff
    (a.reg = b.reg ∧ a.ram = b.ram ∧ a.PC = b.PC ∧ a.IR = b.IR ∧ a.FL = b.FL)
    (by cases a; cases b; simp)

/-- Result of running a Python computation: a value plus the state after,
or an exception plus the state at the raise point. -/
inductive PyResult (α : Type) where
  | ok (a : α) (s : CPUState)
  | err (e : PyErr) (s : CPUState)

instance {α : Type} [DecidableEq α] : DecidableEq (PyResult α) := fun a b =>
  match a, b with
  | .ok x s, .ok y t =>
    decidable_of_iff (x = y ∧ s = t) (by constructor <;> intro h <;> simp_all)
  | .ok _ _, .err _ _ => isFalse (by intro h; cases h)
  | .err _ _, .ok _ _ => isFalse (by intro h; cases h)
  | .err e s, .err f t =>
    decidable_of_iff (e = f ∧ s = t) (by constructor <;> intro h <;> simp_all)

/-- State-plus-exceptions monad for the embedded Python code. -/
def PyM (α : Type) : Type := CPUState → PyResult α

instance : Monad PyM where
  pure a := fun s => .ok a s
  bind x f := fun s =>
    match x s with
    | .ok a s1 => f a s1
    | .err e s1 => .err e s1

def getS : PyM CPUState := fun s => .ok s s

def modifyS (f : CPUState → CPUState) : PyM Unit := fun s => .ok () (f s)

def throwE {α : Type} (e : PyErr) : PyM α := fun s => .err e s

/-- The state a computation ends in, whether it returned or raised. -/
def PyResult.state {α : Type} : PyResult α → CPUState
  | .ok _ s => s
  | .err _ s => s

/-- The exception a computation raised, if any. -/
def PyResult.errOf {α : Type} : PyResult α → Option PyErr
  | .ok _ _ => none
  | .err e _ => some e

/-- The returned value of a computation, if it did not raise. -/
def PyResult.valOf {α : Type} : PyResult α → Option α
  | .ok a _ => some a
  | .err _ _ => none

/-- `self.ram_read(address)`: `return self.ram[address]`. Reading a
`bytearray` at an index `≥ 256` raises `IndexError`. -/
def ram_read (address : Nat) : PyM Nat := fun s =>
  if h : address < 256 then .ok (s.ram ⟨address, h⟩) s
  else .err .indexError s

/-- `self.ram_write(value, address)`: `self.ram[address] = value`. A
`bytearray` store checks the index first (`IndexError`), then that the
value is in `0..255` (`ValueError`). -/
def ram_write (value : Int) (address : Nat) : PyM Unit := fun s =>
  if h : address < 256 then
    if 0 ≤ value ∧ value < 256 then
      .ok () { s with ram := Function.update s.ram ⟨address, h⟩ value.toNat }
    else .err .valueError s
  else .err .indexError s

/-- A read `self.reg[i]` of the register `bytearray`. -/
def regRead (i : Nat) : PyM Nat := fun s =>
  if h : i < 8 then .ok (s.reg ⟨i, h⟩) s
  else .err .indexError s

/-- A store `self.reg[i] = v` into the register `bytearray`: index checked
first (`IndexError`), then the value range (`ValueError`). -/
def regWrite (i : Nat) (v : Int) : PyM Unit := fun s =>
  if h : i < 8 then
    if 0 ≤ v ∧ v < 256 then
      .ok () { s with reg := Function.update s.reg ⟨i, h⟩ v.toNat }
    else .err .valueError s
  else .err .indexError s

/-- `CPU.hlt(reg_num, value)`: `sys.exit()`. Note the method takes two
parameters although `HLT` encodes zero operands; `run` never dispatches
it because the loop condition checks `HLT` first. -/
def hlt (_reg_num _value : Nat) : PyM Unit := throwE .systemExit

/-- `CPU.ldi(reg_num, value)`: `self.reg[reg_num] = value`. -/
def ldi (reg_num value : Nat) : PyM Unit := regWrite reg_num (value : Int)

/-- `CPU.prn(reg_num)`: `print(self.reg[reg_num])`. The console output is
not part of the machine state; the register read (and its possible
`IndexError`) is kept. -/
def prn (reg_num : Nat) : PyM Unit := do
  let _ ← regRead reg_num
  pure ()

/-- `CPU.pop(reg_num)`:
`self.reg[reg_num] = self.ram_read(self.reg[SP]); self.reg[SP] += 1`.
The second line re-reads `self.reg[SP]`, which matters when
`reg_num == SP`. -/
def pop (reg_num : Nat) : PyM Unit := do
  let sp ← regRead 7
  let v ← ram_read sp
  regWrite reg_num (v : Int)
  let sp2 ← regRead 7
  regWrite 7 ((sp2 : Int) + 1)

/-- `CPU.push(reg_num)`:
`self.reg[SP] -= 1; self.ram_write(self.reg[reg_num], self.reg[SP])`. -/
def push (reg_num : Nat) : PyM Unit := do
  let sp ← regRead 7
  regWrite 7 ((sp : Int) - 1)
  let v ← regRead reg_num
  let sp2 ← regRead 7
  ram_write (v : Int) sp2

/-- `CPU.call(reg_num)`: `self.ldi(4, self.PC + 2); self.push(4);
self.PC = self.reg[reg_num]`. The return address is stashed in register
4. -/
def call (reg_num : Nat) : PyM Unit := do
  let s ← getS
  ldi 4 (s.PC + 2)
  push 4
  let v ← regRead reg_num
  modifyS fun t => { t with PC := v }

/-- `CPU.ret()`: `self.pop(4); self.PC = self.reg[4]`. -/
def ret : PyM Unit := do
  pop 4
  let v ← regRead 4
  modifyS fun t => { t with PC := v }

/-- `CPU.jmp(reg_num)`: `self.PC = self.reg[reg_num]`. -/
def jmp (reg_num : Nat) : PyM Unit := do
  let v ← regRead reg_num
  modifyS fun t => { t with PC := v }

/-- `CPU.jeq(reg_num)`: jump to `self.reg[reg_num]` if `self.FL == 1`,
else `self.PC += 2`. -/
def jeq (reg_num : Nat) : PyM Unit := do
  let s ← getS
  if s.FL = 1 then
    let v ← regRead reg_num
    modifyS fun t => { t with PC := v }
  else
    modifyS fun t => { t with PC := t.PC + 2 }

/-- `CPU.jne(reg_num)`: jump to `self.reg[reg_num]` if `self.FL != 1`,
else `self.PC += 2`. -/
def jne (reg_num : Nat) : PyM Unit := do
  let s ← getS
  if s.FL ≠ 1 then
    let v ← regRead reg_num
    modifyS fun t => { t with PC := v }
  else
    modifyS fun t => { t with PC := t.PC + 2 }

/-- The body of `CPU.alu(op, reg_a, reg_b)`, translated branch by branch
in source order. `op` is compared against string tags, except the last
two branches, which compare it against the integer constants
`SHL = 0b10101100` and `SHR = 0b10101101`; since every call site passes a
string, those comparisons are always false and shift requests fall into
the final `raise Exception("Unsupported ALU operation")`. Had the shift
branches been reachable, they shift by `reg_b` itself (the register
index), not by the value held in register `reg_b`. -/
def aluBody (op : PyVal) (reg_a reg_b : Nat) : PyM Unit :=
  if op = PyVal.str ("ADD") then do
    let a ← regRead reg_a
    let b ← regRead reg_b
    regWrite reg_a ((a : Int) + (b : Int))
  else if op = PyVal.str ("SUB") then do
    let a ← regRead reg_a
    let b ← regRead reg_b
    regWrite reg_a ((a : Int) - (b : Int))
  else if op = PyVal.str ("MUL") then do
    let a ← regRead reg_a
    let b ← regRead reg_b
    regWrite reg_a ((a : Int) * (b : Int))
  else if op = PyVal.str ("DIV") then do
    let a ← regRead reg_a
    let b ← regRead reg_b
    if b = 0 then throwE .zeroDivisionError
    else regWrite reg_a ((a / b : Nat) : Int)
  else if op = PyVal.str ("MOD") then do
    let a ← regRead reg_a
    let b ← regRead reg_b
    if b = 0 then throwE .zeroDivisionError
    else regWrite reg_a ((a % b : Nat) : Int)
  else if op = PyVal.str ("CMP") then do
    let a ← regRead reg_a
    let b ← regRead reg_b
    if a < b then modifyS fun s => { s with FL := 4 }
    else if b < a then modifyS fun s => { s with FL := 2 }
    else if a = b then modifyS fun s => { s with FL := 1 }
    else pure ()
  else if op = PyVal.str ("AND") then do
    let a ← regRead reg_a
    let b ← regRead reg_b
    regWrite reg_a ((a &&& b : Nat) : Int)
  else if op = PyVal.str ("OR") then do
    let a ← regRead reg_a
    let b ← regRead reg_b
    regWrite reg_a ((a ||| b : Nat) : Int)
  else if op = PyVal.str ("XOR") then do
    let a ← regRead reg_a
    let b ← regRead reg_b
    regWrite reg_a ((a ^^^ b : Nat) : Int)
  else if op = PyVal.str ("NOT") then do
    let a ← regRead reg_a
    regWrite reg_a (-(a : Int) - 1)
  else if op = PyVal.int 172 then do
    let a ← regRead reg_a
    regWrite reg_a ((a : Int) * (2 : Int) ^ reg_b)
  else if op = PyVal.int 173 then do
    let a ← regRead reg_a
    regWrite reg_a ((a / 2 ^ reg_b : Nat) : Int)
  else throwE (.exception ("Unsupported ALU operation"))

/-- `CPU.alu(op, reg_a, reg_b)`. `reg_b = none` models a call with the
third positional argument missing, which Python rejects with `TypeError`
before the body runs. -/
def alu (op : PyVal) (reg_a : Nat) (reg_b : Option Nat) : PyM Unit :=
  match reg_b with
  | none => throwE .typeError
  | some b => aluBody op reg_a b

/-- `CPU.add`. -/
def add (reg_a reg_b : Nat) : PyM Unit := alu (PyVal.str ("ADD")) reg_a (some reg_b)

/-- `CPU.sub`. -/
def sub (reg_a reg_b : Nat) : PyM Unit := alu (PyVal.str ("SUB")) reg_a (some reg_b)

/-- `CPU.mul`. -/
def mul (reg_a reg_b : Nat) : PyM Unit := alu (PyVal.str ("MUL")) reg_a (some reg_b)

/-- `CPU.div`. -/
def div (reg_a reg_b : Nat) : PyM Unit := alu (PyVal.str ("DIV")) reg_a (some reg_b)

/-- `CPU.mod`. -/
def mod (reg_a reg_b : Nat) : PyM Unit := alu (PyVal.str ("MOD")) reg_a (some reg_b)

/-- `CPU.cmp`. -/
def cmp (reg_a reg_b : Nat) : PyM Unit := alu (PyVal.str ("CMP")) reg_a (some reg_b)

/-- `CPU.and_bit`. -/
def and_bit (reg_a reg_b : Nat) : PyM Unit := alu (PyVal.str ("AND")) reg_a (some reg_b)

/-- `CPU.or_bit`. -/
def or_bit (reg_a reg_b : Nat) : PyM Unit := alu (PyVal.str ("OR")) reg_a (some reg_b)

/-- `CPU.xor`. -/
def xor (reg_a reg_b : Nat) : PyM Unit := alu (PyVal.str ("XOR")) reg_a (some reg_b)

/-- `CPU.not_bit(reg_num)`: `self.alu("NOT", reg_num)` — `alu` requires a
third positional argument, so the call itself raises `TypeError`. -/
def not_bit (reg_num : Nat) : PyM Unit := alu (PyVal.str ("NOT")) reg_num none

/-- `CPU.shl`. -/
def shl (reg_a reg_b : Nat) : PyM Unit := alu (PyVal.str ("SHL")) reg_a (some reg_b)

/-- `CPU.shr`. -/
def shr (reg_a reg_b : Nat) : PyM Unit := alu (PyVal.str ("SHR")) reg_a (some reg_b)

/-- A bound method stored in `self.branch`, tagged by the number of
positional parameters the Python method takes (after `self`). -/
inductive Handler where
  | h0 (f : PyM Unit)
  | h1 (f : Nat → PyM Unit)
  | h2 (f : Nat → Nat → PyM Unit)

/-- The dispatch table `self.branch`, keyed by the full opcode byte. -/
def branch (ir : Nat) : Option Handler :=
  if ir = 0b00000001 then some (.h2 hlt)
  else if ir = 0b10000010 then some (.h2 ldi)
  else if ir = 0b01000111 then some (.h1 prn)
  else if ir = 0b01000110 then some (.h1 pop)
  else if ir = 0b01000101 then some (.h1 push)
  else if ir = 0b01010000 then some (.h1 call)
  else if ir = 0b00010001 then some (.h0 ret)
  else if ir = 0b10100000 then some (.h2 add)
  else if ir = 0b10100001 then some (.h2 sub)
  else if ir = 0b10100010 then some (.h2 mul)
  else if ir = 0b10100011 then some (.h2 div)
  else if ir = 0b10100100 then some (.h2 mod)
  else if ir = 0b10100111 then some (.h2 cmp)
  else if ir = 0b01010100 then some (.h1 jmp)
  else if ir = 0b01010101 then some (.h1 jeq)
  else if ir = 0b01010110 then some (.h1 jne)
  else if ir = 0b10101000 then some (.h2 and_bit)
  else if ir = 0b10101010 then some (.h2 or_bit)
  else if ir = 0b10101011 then some (.h2 xor)
  else if ir = 0b01101001 then some (.h1 not_bit)
  else if ir = 0b10101100 then some (.h2 shl)
  else if ir = 0b10101101 then some (.h2 shr)
  else none

/-- `self.branch[self.IR]()` / `(op_a)` / `(op_a, op_b)` selected by the
decoded operand count; an arity mismatch between the call and the bound
method raises `TypeError` as in Python. -/
def callHandler (h : Handler) (nums op_a op_b : Nat) : PyM Unit :=
  if nums = 0 then
    match h with
    | .h0 f => f
    | _ => throwE .typeError
  else if nums = 1 then
    match h with
    | .h1 f => f op_a
    | _ => throwE .typeError
  else
    match h with
    | .h2 f => f op_a op_b
    | _ => throwE .typeError

/-- The message of the exception `run` raises on an unknown opcode. The
source line is `raise Exception("Unsupported operation {self.IR} at
address {self.PC}.")` — a plain string literal, not an f-string, so the
placeholders are not interpolated and the message is this constant. -/
def unsupportedMsg : String :=
  "Unsupported operation \x7bself.IR\x7d at address \x7bself.PC\x7d."

/-- The `try`/`except` dispatch inside the loop body of `CPU.run`: look
up `self.branch[self.IR]` and call it with the decoded number of
operands. The only statement in the `try` block that can raise `KeyError`
is the table lookup, and the `except KeyError` clause re-raises it as
`Exception(...)` with the constant message above; every other exception
(none of which is a `KeyError`) propagates unchanged. -/
def dispatchStep (op_a op_b : Nat) : PyM Unit := do
  let s ← getS
  match branch s.IR with
  | none => throwE (.exception unsupportedMsg)
  | some h => callHandler h ((s.IR &&& 0b11000000) >>> 6) op_a op_b

/-- One iteration of the `while` body of `CPU.run`, up to but not
including the refetch of `IR`/`op_a`/`op_b`: decode `nums` and `pc_set`
from `self.IR`, dispatch, and advance `self.PC` by `nums + 1` when
`pc_set == 0`. -/
def runBody (op_a op_b : Nat) : PyM Unit := do
  let s ← getS
  dispatchStep op_a op_b
  if (s.IR &&& 0b00010000) >>> 4 = 0 then
    modifyS fun t => { t with PC := t.PC + ((s.IR &&& 0b11000000) >>> 6) + 1 }
  else pure ()

/-- How a bounded run of the `while` loop ended: the halt opcode was
fetched, or the fuel bound was reached with the loop still running. -/
inductive RunOutcome where
  | halted
  | fuelOut
deriving DecidableEq, Repr

/-- The `while self.IR != HLT` loop of `CPU.run`, bounded by `fuel`
iterations (the Python loop can run forever). Each iteration executes the
body and then refetches `self.IR`, `op_a`, `op_b` at the new `PC`. -/
def runLoop : Nat → Nat → Nat → PyM RunOutcome
  | 0, _, _ => do
    let s ← getS
    if s.IR = 0b00000001 then pure .halted else pure .fuelOut
  | fuel + 1, op_a, op_b => do
    let s ← getS
    if s.IR = 0b00000001 then pure .halted
    else do
      runBody op_a op_b
      let t ← getS
      let ir ← ram_read t.PC
      modifyS fun u => { u with IR := ir }
      let a ← ram_read (t.PC + 1)
      let b ← ram_read (t.PC + 2)
      runLoop fuel a b

/-- `CPU.run()`: the initial fetch of `self.IR`, `op_a`, `op_b` followed
by the dispatch loop, bounded by `fuel` iterations. -/
def run (fuel : Nat) : PyM RunOutcome := do
  let s ← getS
  let ir ← ram_read s.PC
  modifyS fun t => { t with IR := ir }
  let a ← ram_read (s.PC + 1)
  let b ← ram_read (s.PC + 2)
  runLoop fuel a b

/-- The state built by `CPU.__init__`: zeroed registers and RAM, stack
pointer register 7 set to `0xF4`, `PC = IR = FL = 0`. -/
def initState : CPUState :=
  { reg := Function.update (fun _ => 0) (7 : Fin 8) 0xF4
    ram := fun _ => 0
    PC := 0
    IR := 0
    FL := 0 }

/-- Register file from a list: entries beyond the list are 0. -/
def regOf (l : List Nat) : Fin 8 → Nat := fun i => l.getD i.val 0

/-- RAM contents from a list (a loaded program): bytes beyond it are 0. -/
def ramOf (l : List Nat) : Fin 256 → Nat := fun a => l.getD a.val 0

/-- A sequence of `push` instructions, one per listed register index. -/
def pushSeq : List Nat → PyM Unit
  | [] => pure ()
  | r :: rs => do
    push r
    pushSeq rs

/-- A sequence of `pop` instructions hitting the listed register indices
in reverse order (the mirror image of `pushSeq` on the same list). -/
def popRev : List Nat → PyM Unit
  | [] => pure ()
  | r :: rs => do
    popRev rs
    pop r

/-- The flags-register values that ever occur: 0 from construction, or
one of the three comparison results. -/
def FLok (fl : Nat) : Prop := fl = 0 ∨ fl = 1 ∨ fl = 2 ∨ fl = 4

instance (fl : Nat) : Decidable (FLok fl) := by
  unfold FLok; infer_instance

/-- Concrete state for the ADD-overflow evaluation: register 0 holds 255,
register 1 holds 2. -/
def stAdd : CPUState :=
  { reg := regOf [255, 2, 0, 0, 0, 0, 0, 244]
    ram := ramOf []
    PC := 0
    IR := 0
    FL := 0 }

/-- A freshly constructed machine loaded with a program whose first byte,
255, is not an opcode of the dispatch table. -/
def stBad1 : CPUState := { initState with ram := ramOf [255] }

/-- A freshly constructed machine loaded with `PRN R0` followed by the
unrecognized byte 200 at address 2. -/
def stBad2 : CPUState := { initState with ram := ramOf [0b01000111, 0, 200] }

/-- Machine with registers A = `reg 0` = 3, B = `reg 1` = 5, `reg 2` = 99,
loaded with `CMP R0,R1; JEQ R2`. -/
def stCmpJeq : CPUState :=
  { reg := regOf [3, 5, 99, 0, 0, 0, 0, 244]
    ram := ramOf [0b10100111, 0, 1, 0b01010101, 2]
    PC := 0
    IR := 0
    FL := 0 }

/-- Machine with registers A = `reg 0` = 3, B = `reg 1` = 5, `reg 2` = 99,
loaded with `CMP R0,R1; JNE R2`. -/
def stCmpJne : CPUState :=
  { reg := regOf [3, 5, 99, 0, 0, 0, 0, 244]
    ram := ramOf [0b10100111, 0, 1, 0b01010110, 2]
    PC := 0
    IR := 0
    FL := 0 }

/-- Machine with `reg 0` = 7 and `reg 1` = 0, loaded with `DIV R0,R1`. -/
def stDiv0 : CPUState :=
  { reg := regOf [7, 0, 0, 0, 0, 0, 0, 244]
    ram := ramOf [0b10100011, 0, 1]
    PC := 0
    IR := 0
    FL := 0 }

/-- Machine about to dispatch `CALL R2` with `reg 2` = 32: `PC = 0`, so
the claimed bookkeeping value is `PC + 2 = 2`. -/
def stCall : CPUState :=
  { reg := regOf [0, 0, 32, 0, 0, 0, 0, 244]
    ram := ramOf [0b01010000, 2]
    PC := 0
    IR := 0b01010000
    FL := 0 }

/-- Machine about to dispatch `LDI R0,5` (instruction register already
fetched), used to exercise the dispatcher's PC advance. -/
def stLdi : CPUState :=
  { reg := regOf [0, 0, 0, 0, 0, 0, 0, 244]
    ram := ramOf [0b10000010, 0, 5]
    PC := 0
    IR := 0b10000010
    FL := 0 }

/-- Machine about to dispatch `JMP R2` with `reg 2` = 9 (instruction
register already fetched), a PC-control instruction. -/
def stJmp : CPUState :=
  { reg := regOf [0, 0, 9, 0, 0, 0, 0, 244]
    ram := ramOf [0b01010100, 2]
    PC := 0
    IR := 0b01010100
    FL := 0 }

/-- Machine about to dispatch `SHL R0,R1` (instruction register already
fetched). -/
def stShl : CPUState :=
  { reg := regOf [1, 1, 0, 0, 0, 0, 0, 244]
    ram := ramOf [0b10101100, 0, 1]
    PC := 0
    IR := 0b10101100
    FL := 0 }

/-- State used for the push/pop mirror witness. -/
def stStack : CPUState :=
  { reg := regOf [10, 20, 0, 30, 0, 0, 0, 244]
    ram := ramOf []
    PC := 0
    IR := 0
    FL := 0 }

/-- The state `stLdi` after its `LDI R0,5` handler has run. -/
def stLdiAfter : CPUState := { stLdi with reg := Function.update stLdi.reg 0 5 }

/-- The state `stJmp` after its `JMP R2` handler has run. -/
def stJmpAfter : CPUState := { stJmp with PC := 9 }

/-- FL-preservation of a bound method of the dispatch table, stated
constructor-wise over the three arities. -/
def presH : Handler → Prop
  | .h0 f => ∀ s, ((f s).state).FL = s.FL
  | .h1 f => ∀ x s, ((f x s).state).FL = s.FL
  | .h2 f => ∀ x y s, ((f x y s).state).FL = s.FL

@[simp]
theorem bind_apply {α β : Type} (x : PyM α) (f : α → PyM β) (s : CPUState) :
    (x >>= f) s =
      match x s with
      | .ok a s1 => f a s1
      | .err e s1 => PyResult.err e s1 := rfl

@[simp]
theorem pure_apply {α : Type} (a : α) (s : CPUState) :
    (pure a : PyM α) s = .ok a s := rfl

@[simp]
theorem getS_apply (s : CPUState) : getS s = .ok s s := rfl

@[simp]
theorem modifyS_apply (f : CPUState → CPUState) (s : CPUState) :
    modifyS f s = .ok () (f s) := rfl

@[simp]
theorem throwE_apply {α : Type} (e : PyErr) (s : CPUState) :
    (throwE e : PyM α) s = .err e s := rfl

@[simp]
theorem state_ok {α : Type} (a : α) (s : CPUState) :
    (PyResult.ok a s).state = s := rfl

@[simp]
theorem state_err {α : Type} (e : PyErr) (s : CPUState) :
    (PyResult.err e s : PyResult α).state = s := rfl

@[simp]
theorem errOf_ok {α : Type} (a : α) (s : CPUState) :
    (PyResult.ok a s).errOf = none := rfl

@[simp]
theorem errOf_err {α : Type} (e : PyErr) (s : CPUState) :
    (PyResult.err e s : PyResult α).errOf = some e := rfl

@[simp]
theorem valOf_ok {α : Type} (a : α) (s : CPUState) :
    (PyResult.ok a s).valOf = some a := rfl

@[simp]
theorem valOf_err {α : Type} (e : PyErr) (s : CPUState) :
    (PyResult.err e s : PyResult α).valOf = none := rfl

theorem regRead_lt (i : Nat) (h : i < 8) (s : CPUState) :
    regRead i s = .ok (s.reg ⟨i, h⟩) s := by
  simp [regRead, h]

theorem regWrite_lt (i : Nat) (h : i < 8) (v : Int) (hv : 0 ≤ v ∧ v < 256)
    (s : CPUState) :
    regWrite i v s = .ok () { s with reg := Function.update s.reg ⟨i, h⟩ v.toNat } := by
  simp [regWrite, h, hv]

theorem ram_read_lt (a : Nat) (h : a < 256) (s : CPUState) :
    ram_read a s = .ok (s.ram ⟨a, h⟩) s := by
  simp [ram_read, h]

theorem ram_write_lt (a : Nat) (h : a < 256) (v : Int) (hv : 0 ≤ v ∧ v < 256)
    (s : CPUState) :
    ram_write v a s = .ok () { s with ram := Function.update s.ram ⟨a, h⟩ v.toNat } := by
  simp [ram_write, h, hv]

theorem regRead7 (s : CPUState) : regRead 7 s = .ok (s.reg 7) s := rfl

theorem regRead4 (s : CPUState) : regRead 4 s = .ok (s.reg 4) s := rfl

theorem regWrite7 (v : Int) (hv : 0 ≤ v ∧ v < 256) (s : CPUState) :
    regWrite 7 v s = .ok () { s with reg := Function.update s.reg 7 v.toNat } := by
  simp [regWrite, hv]

theorem regWrite4 (v : Int) (hv : 0 ≤ v ∧ v < 256) (s : CPUState) :
    regWrite 4 v s = .ok () { s with reg := Function.update s.reg 4 v.toNat } := by
  simp [regWrite, hv]

theorem bind_ok {α β : Type} {x : PyM α} {f : α → PyM β} {s t : CPUState} {a : α}
    (h : x s = .ok a t) : (x >>= f) s = f a t := by
  rw [bind_apply, h]

theorem push_ok (r : Nat) (hr : r < 8) (s : CPUState)
    (h1 : 0 < s.reg 7) (h2 : s.reg 7 < 257)
    (hv : Function.update s.reg 7 (s.reg 7 - 1) ⟨r, hr⟩ < 256) :
    push r s = .ok () { s with
      reg := Function.update s.reg 7 (s.reg 7 - 1),
      ram := Function.update s.ram ⟨s.reg 7 - 1, by omega⟩
               (Function.update s.reg 7 (s.reg 7 - 1) ⟨r, hr⟩) } := by
  have hw : (0 : Int) ≤ (s.reg 7 : Int) - 1 ∧ (s.reg 7 : Int) - 1 < 256 := by
    constructor <;> omega
  have ht : ((s.reg 7 : Int) - 1).toNat = s.reg 7 - 1 := by omega
  rw [push]
  simp only [bind_apply, regRead7, regWrite7 _ hw, ht]
  simp only [regRead_lt r hr, regRead7, Function.update_same]
  have hvv : (0 : Int) ≤ ((Function.update s.reg 7 (s.reg 7 - 1) ⟨r, hr⟩ : Nat) : Int)
      ∧ ((Function.update s.reg 7 (s.reg 7 - 1) ⟨r, hr⟩ : Nat) : Int) < 256 := by
    constructor <;> omega
  rw [ram_write_lt _ (by omega) _ hvv]
  simp

theorem pop_ok (r : Nat) (hr : r < 8) (s : CPUState)
    (hsp : s.reg 7 < 256)
    (hram : s.ram ⟨s.reg 7, hsp⟩ < 256)
    (hsp2 : Function.update s.reg ⟨r, hr⟩ (s.ram ⟨s.reg 7, hsp⟩) 7 + 1 < 256) :
    pop r s = .ok () { s with
      reg := Function.update (Function.update s.reg ⟨r, hr⟩ (s.ram ⟨s.reg 7, hsp⟩)) 7
               (Function.update s.reg ⟨r, hr⟩ (s.ram ⟨s.reg 7, hsp⟩) 7 + 1) } := by
  have hv1 : (0 : Int) ≤ ((s.ram ⟨s.reg 7, hsp⟩ : Nat) : Int)
      ∧ ((s.ram ⟨s.reg 7, hsp⟩ : Nat) : Int) < 256 := by constructor <;> omega
  rw [pop]
  simp only [bind_apply, regRead7, ram_read_lt _ hsp,
    regWrite_lt r hr _ hv1, Int.toNat_natCast]
  have hv2 : (0 : Int) ≤ ((Function.update s.reg ⟨r, hr⟩ (s.ram ⟨s.reg 7, hsp⟩) 7 : Nat) : Int) + 1
      ∧ ((Function.update s.reg ⟨r, hr⟩ (s.ram ⟨s.reg 7, hsp⟩) 7 : Nat) : Int) + 1 < 256 := by
    constructor <;> omega
  rw [regWrite7 _ hv2]
  have ht2 : (((Function.update s.reg ⟨r, hr⟩ (s.ram ⟨s.reg 7, hsp⟩) 7 : Nat) : Int) + 1).toNat
      = Function.update s.reg ⟨r, hr⟩ (s.ram ⟨s.reg 7, hsp⟩) 7 + 1 := by omega
  simp only [ht2]

theorem state_regRead (i : Nat) (s : CPUState) : (regRead i s).state = s := by
  unfold regRead; split <;> rfl

theorem FL_regWrite (i : Nat) (v : Int) (s : CPUState) :
    ((regWrite i v s).state).FL = s.FL := by
  unfold regWrite
  split
  · split <;> rfl
  · rfl

theorem state_ram_read (a : Nat) (s : CPUState) : (ram_read a s).state = s := by
  unfold ram_read; split <;> rfl

theorem FL_ram_write (v : Int) (a : Nat) (s : CPUState) :
    ((ram_write v a s).state).FL = s.FL := by
  unfold ram_write
  split
  · split <;> rfl
  · rfl

theorem FL_bind {α β : Type} {x : PyM α} {f : α → PyM β}
    (hx : ∀ s, ((x s).state).FL = s.FL) (hf : ∀ a s, ((f a s).state).FL = s.FL) :
    ∀ s, (((x >>= f) s).state).FL = s.FL := by
  intro s
  rw [bind_apply]
  rcases hxs : x s with ⟨a, t⟩ | ⟨e, t⟩
  · have h1 := hx s; rw [hxs] at h1; simp only [state_ok] at h1
    rw [hf a t, h1]
  · have h1 := hx s; rw [hxs] at h1; simp only [state_err] at h1
    simp only [state_err]; exact h1

theorem FL_regRead (i : Nat) : ∀ s, ((regRead i s).state).FL = s.FL :=
  fun s => by rw [state_regRead]

theorem FL_ram_read (a : Nat) : ∀ s, ((ram_read a s).state).FL = s.FL :=
  fun s => by rw [state_ram_read]

theorem FL_hlt (x y : Nat) : ∀ s, ((hlt x y s).state).FL = s.FL := fun _ => rfl

theorem FL_ldi (x y : Nat) : ∀ s, ((ldi x y s).state).FL = s.FL :=
  fun s => FL_regWrite x _ s

theorem FL_prn (x : Nat) : ∀ s, ((prn x s).state).FL = s.FL := by
  unfold prn
  exact FL_bind (FL_regRead x) (fun _ _ => rfl)

theorem FL_pop (r : Nat) : ∀ s, ((pop r s).state).FL = s.FL := by
  unfold pop
  refine FL_bind (FL_regRead 7) ?_
  intro sp
  refine FL_bind (FL_ram_read sp) ?_
  intro v
  refine FL_bind (fun s => FL_regWrite _ _ s) ?_
  intro _
  refine FL_bind (FL_regRead 7) ?_
  intro sp2
  exact fun s => FL_regWrite _ _ s

theorem FL_push (r : Nat) : ∀ s, ((push r s).state).FL = s.FL := by
  unfold push
  refine FL_bind (FL_regRead 7) ?_
  intro sp
  refine FL_bind (fun s => FL_regWrite _ _ s) ?_
  intro _
  refine FL_bind (FL_regRead r) ?_
  intro v
  refine FL_bind (FL_regRead 7) ?_
  intro sp2
  exact fun s => FL_ram_write _ _ s

theorem FL_call (r : Nat) : ∀ s, ((call r s).state).FL = s.FL := by
  unfold call
  refine FL_bind (fun _ => rfl) ?_
  intro s0
  refine FL_bind (FL_ldi _ _) ?_
  intro _
  refine FL_bind (FL_push _) ?_
  intro _
  refine FL_bind (FL_regRead r) ?_
  intro v
  exact fun _ => rfl

theorem FL_ret : ∀ s, ((ret s).state).FL = s.FL := by
  unfold ret
  refine FL_bind (FL_pop 4) ?_
  intro _
  refine FL_bind (FL_regRead 4) ?_
  intro v
  exact fun _ => rfl

theorem FL_jmp (r : Nat) : ∀ s, ((jmp r s).state).FL = s.FL := by
  unfold jmp
  refine FL_bind (FL_regRead r) ?_
  intro v
  exact fun _ => rfl

theorem FL_jeq (r : Nat) : ∀ s, ((jeq r s).state).FL = s.FL := by
  unfold jeq
  refine FL_bind (fun _ => rfl) ?_
  intro s0 s
  dsimp only
  split
  · apply FL_bind (FL_regRead r)
    intro v u
    rfl
  · rfl

theorem FL_jne (r : Nat) : ∀ s, ((jne r s).state).FL = s.FL := by
  unfold jne
  refine FL_bind (fun _ => rfl) ?_
  intro s0 s
  dsimp only
  split
  · apply FL_bind (FL_regRead r)
    intro v u
    rfl
  · rfl

theorem FL_add (a b : Nat) : ∀ s, ((add a b s).state).FL = s.FL := by
  rw [show add a b = (do
    let x ← regRead a
    let y ← regRead b
    regWrite a ((x : Int) + (y : Int))) from rfl]
  exact FL_bind (FL_regRead a) (fun x =>
    FL_bind (FL_regRead b) (fun y s => FL_regWrite _ _ s))

theorem FL_sub (a b : Nat) : ∀ s, ((sub a b s).state).FL = s.FL := by
  rw [show sub a b = (do
    let x ← regRead a
    let y ← regRead b
    regWrite a ((x : Int) - (y : Int))) from rfl]
  exact FL_bind (FL_regRead a) (fun x =>
    FL_bind (FL_regRead b) (fun y s => FL_regWrite _ _ s))

theorem FL_mul (a b : Nat) : ∀ s, ((mul a b s).state).FL = s.FL := by
  rw [show mul a b = (do
    let x ← regRead a
    let y ← regRead b
    regWrite a ((x : Int) * (y : Int))) from rfl]
  exact FL_bind (FL_regRead a) (fun x =>
    FL_bind (FL_regRead b) (fun y s => FL_regWrite _ _ s))

theorem FL_div (a b : Nat) : ∀ s, ((div a b s).state).FL = s.FL := by
  rw [show div a b = (do
    let x ← regRead a
    let y ← regRead b
    if y = 0 then throwE PyErr.zeroDivisionError
    else regWrite a ((x / y : Nat) : Int)) from rfl]
  refine FL_bind (FL_regRead a) ?_
  intro x
  refine FL_bind (FL_regRead b) ?_
  intro y s
  dsimp only
  split
  · rfl
  · exact FL_regWrite _ _ s

theorem FL_mod (a b : Nat) : ∀ s, ((mod a b s).state).FL = s.FL := by
  rw [show mod a b = (do
    let x ← regRead a
    let y ← regRead b
    if y = 0 then throwE PyErr.zeroDivisionError
    else regWrite a ((x % y : Nat) : Int)) from rfl]
  refine FL_bind (FL_regRead a) ?_
  intro x
  refine FL_bind (FL_regRead b) ?_
  intro y s
  dsimp only
  split
  · rfl
  · exact FL_regWrite _ _ s

theorem FL_and_bit (a b : Nat) : ∀ s, ((and_bit a b s).state).FL = s.FL := by
  rw [show and_bit a b = (do
    let x ← regRead a
    let y ← regRead b
    regWrite a ((x &&& y : Nat) : Int)) from rfl]
  exact FL_bind (FL_regRead a) (fun x =>
    FL_bind (FL_regRead b) (fun y s => FL_regWrite _ _ s))

theorem FL_or_bit (a b : Nat) : ∀ s, ((or_bit a b s).state).FL = s.FL := by
  rw [show or_bit a b = (do
    let x ← regRead a
    let y ← regRead b
    regWrite a ((x ||| y : Nat) : Int)) from rfl]
  exact FL_bind (FL_regRead a) (fun x =>
    FL_bind (FL_regRead b) (fun y s => FL_regWrite _ _ s))

theorem FL_xor (a b : Nat) : ∀ s, ((xor a b s).state).FL = s.FL := by
  rw [show xor a b = (do
    let x ← regRead a
    let y ← regRead b
    regWrite a ((x ^^^ y : Nat) : Int)) from rfl]
  exact FL_bind (FL_regRead a) (fun x =>
    FL_bind (FL_regRead b) (fun y s => FL_regWrite _ _ s))

theorem FL_not_bit (r : Nat) : ∀ s, ((not_bit r s).state).FL = s.FL := fun _ => rfl

theorem FL_shl (a b : Nat) : ∀ s, ((shl a b s).state).FL = s.FL := fun _ => rfl

theorem FL_shr (a b : Nat) : ∀ s, ((shr a b s).state).FL = s.FL := fun _ => rfl

theorem FL_callHandler (h : Handler) (hp : presH h) (nums x y : Nat) (s : CPUState) :
    ((callHandler h nums x y s).state).FL = s.FL := by
  unfold callHandler
  split_ifs with hn0 hn1
  · cases h with
    | h0 f => exact hp s
    | h1 f => rfl
    | h2 f => rfl
  · cases h with
    | h0 f => rfl
    | h1 f => exact hp x s
    | h2 f => rfl
  · cases h with
    | h0 f => rfl
    | h1 f => rfl
    | h2 f => exact hp x y s

set_option maxHeartbeats 2000000 in
theorem presH_branch (ir : Nat) (h : Handler) (hb : branch ir = some h)
    (hne : ir ≠ 0b10100111) : presH h := by
  rw [branch] at hb
  by_cases e0 : ir = 0b00000001
  · rw [if_pos e0] at hb
    injection hb with hb
    subst hb
    exact fun x y s => FL_hlt x y s
  rw [if_neg e0] at hb
  by_cases e1 : ir = 0b10000010
  · rw [if_pos e1] at hb
    injection hb with hb
    subst hb
    exact fun x y s => FL_ldi x y s
  rw [if_neg e1] at hb
  by_cases e2 : ir = 0b01000111
  · rw [if_pos e2] at hb
    injection hb with hb
    subst hb
    exact fun x s => FL_prn x s
  rw [if_neg e2] at hb
  by_cases e3 : ir = 0b01000110
  · rw [if_pos e3] at hb
    injection hb with hb
    subst hb
    exact fun x s => FL_pop x s
  rw [if_neg e3] at hb
  by_cases e4 : ir = 0b01000101
  · rw [if_pos e4] at hb
    injection hb with hb
    subst hb
    exact fun x s => FL_push x s
  rw [if_neg e4] at hb
  by_cases e5 : ir = 0b01010000
  · rw [if_pos e5] at hb
    injection hb with hb
    subst hb
    exact fun x s => FL_call x s
  rw [if_neg e5] at hb
  by_cases e6 : ir = 0b00010001
  · rw [if_pos e6] at hb
    injection hb with hb
    subst hb
    exact fun s => FL_ret s
  rw [if_neg e6] at hb
  by_cases e7 : ir = 0b10100000
  · rw [if_pos e7] at hb
    injection hb with hb
    subst hb
    exact fun x y s => FL_add x y s
  rw [if_neg e7] at hb
  by_cases e8 : ir = 0b10100001
  · rw [if_pos e8] at hb
    injection hb with hb
    subst hb
    exact fun x y s => FL_sub x y s
  rw [if_neg e8] at hb
  by_cases e9 : ir = 0b10100010
  · rw [if_pos e9] at hb
    injection hb with hb
    subst hb
    exact fun x y s => FL_mul x y s
  rw [if_neg e9] at hb
  by_cases e10 : ir = 0b10100011
  · rw [if_pos e10] at hb
    injection hb with hb
    subst hb
    exact fun x y s => FL_div x y s
  rw [if_neg e10] at hb
  by_cases e11 : ir = 0b10100100
  · rw [if_pos e11] at hb
    injection hb with hb
    subst hb
    exact fun x y s => FL_mod x y s
  rw [if_neg e11] at hb
  by_cases e12 : ir = 0b10100111
  · exact absurd e12 hne
  rw [if_neg e12] at hb
  by_cases e13 : ir = 0b01010100
  · rw [if_pos e13] at hb
    injection hb with hb
    subst hb
    exact fun x s => FL_jmp x s
  rw [if_neg e13] at hb
  by_cases e14 : ir = 0b01010101
  · rw [if_pos e14] at hb
    injection hb with hb
    subst hb
    exact fun x s => FL_jeq x s
  rw [if_neg e14] at hb
  by_cases e15 : ir = 0b01010110
  · rw [if_pos e15] at hb
    injection hb with hb
    subst hb
    exact fun x s => FL_jne x s
  rw [if_neg e15] at hb
  by_cases e16 : ir = 0b10101000
  · rw [if_pos e16] at hb
    injection hb with hb
    subst hb
    exact fun x y s => FL_and_bit x y s
  rw [if_neg e16] at hb
  by_cases e17 : ir = 0b10101010
  · rw [if_pos e17] at hb
    injection hb with hb
    subst hb
    exact fun x y s => FL_or_bit x y s
  rw [if_neg e17] at hb
  by_cases e18 : ir = 0b10101011
  · rw [if_pos e18] at hb
    injection hb with hb
    subst hb
    exact fun x y s => FL_xor x y s
  rw [if_neg e18] at hb
  by_cases e19 : ir = 0b01101001
  · rw [if_pos e19] at hb
    injection hb with hb
    subst hb
    exact fun x s => FL_not_bit x s
  rw [if_neg e19] at hb
  by_cases e20 : ir = 0b10101100
  · rw [if_pos e20] at hb
    injection hb with hb
    subst hb
    exact fun x y s => FL_shl x y s
  rw [if_neg e20] at hb
  by_cases e21 : ir = 0b10101101
  · rw [if_pos e21] at hb
    injection hb with hb
    subst hb
    exact fun x y s => FL_shr x y s
  rw [if_neg e21] at hb
  exact Option.noConfusion hb

theorem aluBody_cmp_eq (a b : Nat) : aluBody (PyVal.str ("CMP")) a b = (do
    let x ← regRead a
    let y ← regRead b
    if x < y then modifyS fun s => { s with FL := 4 }
    else if y < x then modifyS fun s => { s with FL := 2 }
    else if x = y then modifyS fun s => { s with FL := 1 }
    else pure ()) := rfl

theorem cmp_spec (s : CPUState) (a b : Nat) (ha : a < 8) (hb : b < 8) :
    cmp a b s = .ok () { s with FL := if (s.reg ⟨a, ha⟩ < s.reg ⟨b, hb⟩) then 4
      else if (s.reg ⟨b, hb⟩ < s.reg ⟨a, ha⟩) then 2 else 1 } := by
  rw [show cmp a b = aluBody (PyVal.str ("CMP")) a b from rfl, aluBody_cmp_eq]
  simp only [bind_apply, regRead_lt a ha, regRead_lt b hb]
  split_ifs with h1 h2 h3 <;> first | rfl | omega

theorem cmp_ok_values (a b : Nat) (s s2 : CPUState) (h : cmp a b s = .ok () s2) :
    s2.FL = 1 ∨ s2.FL = 2 ∨ s2.FL = 4 := by
  rw [show cmp a b = aluBody (PyVal.str ("CMP")) a b from rfl, aluBody_cmp_eq] at h
  simp only [bind_apply] at h
  rcases hra : regRead a s with ⟨x, t⟩ | ⟨e, t⟩ <;> rw [hra] at h <;> dsimp only at h
  · rcases hrb : regRead b t with ⟨y, u⟩ | ⟨e, u⟩ <;> rw [hrb] at h <;> dsimp only at h
    · split_ifs at h with h1 h2 h3
      · simp only [modifyS_apply, PyResult.ok.injEq] at h
        rw [← h.2]; simp
      · simp only [modifyS_apply, PyResult.ok.injEq] at h
        rw [← h.2]; simp
      · simp only [modifyS_apply, PyResult.ok.injEq] at h
        rw [← h.2]; simp
      · omega
    · exact absurd h (by simp)
  · exact absurd h (by simp)

theorem flok_cmp (a b : Nat) (s : CPUState) (hs : FLok s.FL) :
    FLok (((cmp a b) s).state.FL) := by
  rw [show cmp a b = aluBody (PyVal.str ("CMP")) a b from rfl, aluBody_cmp_eq]
  simp only [bind_apply]
  rcases hra : regRead a s with ⟨x, t⟩ | ⟨e, t⟩ <;>
    (have ht : t = s := by have h := state_regRead a s; rw [hra] at h; exact h) <;>
    dsimp only
  · rcases hrb : regRead b t with ⟨y, u⟩ | ⟨e2, u⟩ <;>
      (have hu : u = t := by have h := state_regRead b t; rw [hrb] at h; exact h) <;>
      dsimp only
    · split_ifs <;> simp only [modifyS_apply, state_ok, pure_apply]
      · simp [FLok]
      · simp [FLok]
      · simp [FLok]
      · rw [hu, ht]; exact hs
    · simp only [state_err]; rw [hu, ht]; exact hs
  · simp only [state_err]; rw [ht]; exact hs

theorem flok_dispatchStep (op_a op_b : Nat) (s : CPUState) (hs : FLok s.FL) :
    FLok (((dispatchStep op_a op_b) s).state.FL) := by
  unfold dispatchStep
  simp only [bind_apply, getS_apply]
  rcases hbr : branch s.IR with _ | h
  · exact hs
  · by_cases hc : s.IR = 0b10100111
    · rw [hc] at hbr
      rw [show branch 0b10100111 = some (Handler.h2 cmp) from rfl] at hbr
      injection hbr with hbr
      rw [← hbr, hc]
      exact flok_cmp op_a op_b s hs
    · rw [FL_callHandler h (presH_branch s.IR h hbr hc)]
      exact hs

theorem flok_runBody (op_a op_b : Nat) (s : CPUState) (hs : FLok s.FL) :
    FLok (((runBody op_a op_b) s).state.FL) := by
  unfold runBody
  simp only [bind_apply, getS_apply]
  rcases hd : dispatchStep op_a op_b s with ⟨a, t⟩ | ⟨e, t⟩
  · have ht : FLok t.FL := by
      have h := flok_dispatchStep op_a op_b s hs; rw [hd] at h; exact h
    dsimp only
    split
    · exact ht
    · exact ht
  · have h := flok_dispatchStep op_a op_b s hs; rw [hd] at h; exact h

theorem flok_runLoop (fuel : Nat) : ∀ (op_a op_b : Nat) (s : CPUState), FLok s.FL →
    FLok (((runLoop fuel op_a op_b) s).state.FL) := by
  induction fuel with
  | zero =>
    intro op_a op_b s hs
    unfold runLoop
    simp only [bind_apply, getS_apply]
    split
    · exact hs
    · exact hs
  | succ n ih =>
    intro op_a op_b s hs
    unfold runLoop
    simp only [bind_apply, getS_apply]
    split
    · exact hs
    · simp only [bind_apply]
      rcases hrb : runBody op_a op_b s with ⟨a, t⟩ | ⟨e, t⟩
      · have ht : FLok t.FL := by
          have h := flok_runBody op_a op_b s hs; rw [hrb] at h; exact h
        simp only [bind_apply, getS_apply]
        rcases hir : ram_read t.PC t with ⟨ir, u⟩ | ⟨e, u⟩
        · have hu : u = t := by have h := state_ram_read t.PC t; rw [hir] at h; exact h
          subst u
          simp only [bind_apply, modifyS_apply]
          rcases ha2 : ram_read (t.PC + 1) { t with IR := ir } with ⟨av, w⟩ | ⟨e, w⟩
          · have hw : w = { t with IR := ir } := by
              have h := state_ram_read (t.PC + 1) { t with IR := ir }
              rw [ha2] at h; exact h
            subst w
            simp only [bind_apply]
            rcases hb2 : ram_read (t.PC + 2) { t with IR := ir } with ⟨bv, w2⟩ | ⟨e, w2⟩
            · have hw2 : w2 = { t with IR := ir } := by
                have h := state_ram_read (t.PC + 2) { t with IR := ir }
                rw [hb2] at h; exact h
              subst w2
              exact ih av bv { t with IR := ir } ht
            · have hw2 : w2 = { t with IR := ir } := by
                have h := state_ram_read (t.PC + 2) { t with IR := ir }
                rw [hb2] at h; exact h
              subst w2
              exact ht
          · have hw : w = { t with IR := ir } := by
              have h := state_ram_read (t.PC + 1) { t with IR := ir }
              rw [ha2] at h; exact h
            subst w
            exact ht
        · have hu : u = t := by have h := state_ram_read t.PC t; rw [hir] at h; exact h
          subst u
          exact ht
      · have h := flok_runBody op_a op_b s hs; rw [hrb] at h; exact h

theorem flok_run (fuel : Nat) (s : CPUState) (hs : FLok s.FL) :
    FLok (((run fuel) s).state.FL) := by
  unfold run
  simp only [bind_apply, getS_apply]
  rcases hir : ram_read s.PC s with ⟨ir, u⟩ | ⟨e, u⟩
  · have hu : u = s := by have h := state_ram_read s.PC s; rw [hir] at h; exact h
    subst u
    simp only [bind_apply, modifyS_apply]
    rcases ha2 : ram_read (s.PC + 1) { s with IR := ir } with ⟨av, w⟩ | ⟨e, w⟩
    · have hw : w = { s with IR := ir } := by
        have h := state_ram_read (s.PC + 1) { s with IR := ir }
        rw [ha2] at h; exact h
      subst w
      simp only [bind_apply]
      rcases hb2 : ram_read (s.PC + 2) { s with IR := ir } with ⟨bv, w2⟩ | ⟨e, w2⟩
      · have hw2 : w2 = { s with IR := ir } := by
          have h := state_ram_read (s.PC + 2) { s with IR := ir }
          rw [hb2] at h; exact h
        subst w2
        exact flok_runLoop fuel av bv { s with IR := ir } hs
      · have hw2 : w2 = { s with IR := ir } := by
          have h := state_ram_read (s.PC + 2) { s with IR := ir }
          rw [hb2] at h; exact h
        subst w2
        exact hs
    · have hw : w = { s with IR := ir } := by
        have h := state_ram_read (s.PC + 1) { s with IR := ir }
        rw [ha2] at h; exact h
      subst w
      exact hs
  · have hu : u = s := by have h := state_ram_read s.PC s; rw [hir] at h; exact h
    subst u
    exact hs

/-- C1: for every instruction byte the dispatch loop executes, with
operand count `nums` decoded from bits 6-7 and PC-control flag decoded
from bit 4, the loop body after a successful dispatch advances `PC` by
exactly `nums + 1` when the flag is 0 and leaves `PC` to the handler
(no advance) when the flag is 1. -/
theorem run_dispatch_pc_advance (s s2 : CPUState) (op_a op_b : Nat)
    (h : dispatchStep op_a op_b s = .ok () s2) :
    runBody op_a op_b s =
      .ok () (if (s.IR &&& 0b00010000) >>> 4 = 0
              then { s2 with PC := s2.PC + ((s.IR &&& 0b11000000) >>> 6) + 1 }
              else s2) := by
  simp only [runBody, bind_apply, getS_apply, h]
  by_cases hc : (s.IR &&& 0b00010000) >>> 4 = 0
  · rw [if_pos hc, if_pos hc]; rfl
  · rw [if_neg hc, if_neg hc]; rfl

/-- Witness for C1: the dispatcher advances PC by 3 after `LDI R0,5`
(two operands, flag 0) and performs no advance after `JMP R2` (flag 1,
the handler set PC to 9 itself). -/
theorem run_dispatch_pc_advance_witness :
    runBody 0 5 stLdi =
      .ok () (if (stLdi.IR &&& 0b00010000) >>> 4 = 0
              then { stLdiAfter with PC := stLdiAfter.PC + ((stLdi.IR &&& 0b11000000) >>> 6) + 1 }
              else stLdiAfter)
    ∧ runBody 2 0 stJmp =
      .ok () (if (stJmp.IR &&& 0b00010000) >>> 4 = 0
              then { stJmpAfter with PC := stJmpAfter.PC + ((stJmp.IR &&& 0b11000000) >>> 6) + 1 }
              else stJmpAfter) :=
  ⟨run_dispatch_pc_advance stLdi stLdiAfter 0 5 (by decide),
   run_dispatch_pc_advance stJmp stJmpAfter 2 0 (by decide)⟩

/-- C2: evaluation of the code at the claim's inputs. ADD on registers
holding 255 and 2 does not wrap to 1: the `bytearray` store of 257 raises
`ValueError` and leaves the whole machine state unchanged; and NOT never
stores an 8-bit value, because `not_bit` calls `alu` without its required
third argument, raising `TypeError` for every register and state. -/
theorem add_overflow_not_wrap :
    ((add 0 1) stAdd).errOf = some PyErr.valueError
    ∧ ((add 0 1) stAdd).state = stAdd
    ∧ ∀ (s : CPUState) (r : Nat), not_bit r s = .err PyErr.typeError s :=
  ⟨by decide, by decide, fun s r => rfl⟩

/-- C3: SHL and SHR do not shift; for every state and register pair they
raise the generic `Exception("Unsupported ALU operation")` of the ALU
fallback branch, because `alu` compares its string tag against the
integer opcode constants. The fallback is therefore reachable through
the dispatch table: dispatching opcode `0b10101100` (SHL) produces that
same exception. -/
theorem shl_shr_unsupported_fallback :
    (∀ (s : CPUState) (a b : Nat),
      shl a b s = .err (PyErr.exception ("Unsupported ALU operation")) s
      ∧ shr a b s = .err (PyErr.exception ("Unsupported ALU operation")) s)
    ∧ ((runBody 0 1) stShl).errOf = some (PyErr.exception ("Unsupported ALU operation")) :=
  ⟨fun s a b => ⟨rfl, rfl⟩, by decide⟩

/-- Counterexample to C4 as stated: executing `CALL R2` from `stCall`
(PC = 0, so the return address is 2) leaves register 6 holding 0, not
the return address; the return address goes to register 4. -/
theorem call_ignores_reg6_ce :
    ((call 2) stCall).errOf = none
    ∧ ((call 2) stCall).state.reg 6 = 0
    ∧ stCall.PC + 2 = 2
    ∧ ((call 2) stCall).state.reg 4 = 2 :=
  ⟨by decide, by decide, by decide, by decide⟩

/-- C4 (amended): executing CALL with target register `r` saves
`PC + 2` into the bookkeeping register, which is register index 4 (not
6), decrements the stack pointer and pushes that register onto the
stack, then sets PC to the address held in register `r` (as read after
those register updates). -/
theorem call_saves_return_in_reg4 (s : CPUState) (r : Nat) (hr : r < 8)
    (hpc : s.PC + 2 < 256) (h1 : 0 < s.reg 7) (h2 : s.reg 7 < 257) :
    call r s = .ok () { s with
      reg := Function.update (Function.update s.reg 4 (s.PC + 2)) 7 (s.reg 7 - 1),
      ram := Function.update s.ram ⟨s.reg 7 - 1, by omega⟩ (s.PC + 2),
      PC := Function.update (Function.update s.reg 4 (s.PC + 2)) 7 (s.reg 7 - 1) ⟨r, hr⟩ } := by
  have hvpc : (0 : Int) ≤ ((s.PC + 2 : Nat) : Int) ∧ ((s.PC + 2 : Nat) : Int) < 256 := by
    constructor <;> omega
  have e74 : ((7 : Fin 8) : Fin 8) ≠ (4 : Fin 8) := by decide
  have e47 : ((4 : Fin 8) : Fin 8) ≠ (7 : Fin 8) := by decide
  rw [call]
  simp only [bind_apply, getS_apply, ldi, regWrite4 _ hvpc, Int.toNat_natCast]
  set s1 : CPUState := { s with reg := Function.update s.reg 4 (s.PC + 2) } with hs1
  have h17 : s1.reg 7 = s.reg 7 := by
    simp [hs1, Function.update_noteq e74]
  have hpv : Function.update s1.reg 7 (s1.reg 7 - 1) ⟨4, by norm_num⟩ < 256 := by
    have e4 : (⟨4, by norm_num⟩ : Fin 8) = (4 : Fin 8) := rfl
    rw [e4, Function.update_noteq e47]
    simp [hs1, Function.update_same]
    omega
  rw [push_ok 4 (by norm_num) s1 (by rw [h17]; exact h1) (by rw [h17]; exact h2) hpv]
  simp only [bind_apply]
  rw [regRead_lt r hr]
  rfl

/-- Witness for C4 (amended): `CALL R2` from `stCall` stores 2 in
register 4, pushes it at address 243, and jumps to 32. -/
theorem call_saves_return_in_reg4_witness :
    call 2 stCall = .ok () { stCall with
      reg := Function.update (Function.update stCall.reg 4 (stCall.PC + 2)) 7 (stCall.reg 7 - 1),
      ram := Function.update stCall.ram ⟨stCall.reg 7 - 1, by decide⟩ (stCall.PC + 2),
      PC := Function.update (Function.update stCall.reg 4 (stCall.PC + 2)) 7 (stCall.reg 7 - 1) ⟨2, by decide⟩ } :=
  call_saves_return_in_reg4 stCall 2 (by decide) (by decide) (by decide) (by decide)

/-- C5: evaluation of the code at two offending inputs. An unrecognized
opcode byte is indeed fatal (the run ends in an exception, with no
further fetches); but the diagnostic is the constant string
`unsupportedMsg` — the source line lacks the `f` prefix, so
`{self.IR}` and `{self.PC}` are not interpolated. Two runs whose
offending bytes are 255 at address 0 and 200 at address 2 produce the
identical message, so the diagnostic identifies neither the address nor
the byte. -/
theorem unknown_opcode_constant_message :
    ((run 5) stBad1).errOf = some (PyErr.exception unsupportedMsg)
    ∧ ((run 5) stBad1).state.PC = 0 ∧ ((run 5) stBad1).state.IR = 255
    ∧ ((run 5) stBad2).errOf = some (PyErr.exception unsupportedMsg)
    ∧ ((run 5) stBad2).state.PC = 2 ∧ ((run 5) stBad2).state.IR = 200 :=
  ⟨by decide, by decide, by decide, by decide, by decide, by decide⟩

/-- C6: push/pop mirror symmetry. For any machine state with byte-valued
registers, any list of valid register indices, and enough stack room, a
sequence of pushes followed by pops of the same registers in reverse
order succeeds and restores every register — including the stack
pointer — as well as PC, IR and FL; only RAM below the original stack
pointer may differ. -/
theorem push_pop_mirror (l : List Nat) : ∀ (s : CPUState),
    (∀ r ∈ l, r < 8) → (∀ i, s.reg i < 256) → l.length ≤ s.reg 7 →
    ∃ ram2, ((pushSeq l >>= fun _ => popRev l) s = .ok () { s with ram := ram2 }
      ∧ ∀ a : Fin 256, s.reg 7 ≤ a.val → ram2 a = s.ram a) := by
  induction l with
  | nil =>
    intro s _ _ _
    exact ⟨s.ram, rfl, fun a _ => rfl⟩
  | cons r rs ih =>
    intro s hidx hreg hlen
    have hr : r < 8 := hidx r (List.mem_cons_self r rs)
    have hx1 : 0 < s.reg 7 := by
      have h := hlen; simp only [List.length_cons] at h; omega
    have hx2 : s.reg 7 < 257 := by have := hreg 7; omega
    have hx3 : s.reg 7 < 256 := hreg 7
    have hv : Function.update s.reg 7 (s.reg 7 - 1) ⟨r, hr⟩ < 256 := by
      by_cases hc : (⟨r, hr⟩ : Fin 8) = (7 : Fin 8)
      · rw [hc, Function.update_same]; omega
      · rw [Function.update_noteq hc]; exact hreg _
    have hpush := push_ok r hr s hx1 hx2 hv
    set v : Nat := Function.update s.reg 7 (s.reg 7 - 1) ⟨r, hr⟩ with hvdef
    set s1 : CPUState := { s with
      reg := Function.update s.reg 7 (s.reg 7 - 1),
      ram := Function.update s.ram ⟨s.reg 7 - 1, by omega⟩ v } with hs1
    have h17 : s1.reg 7 = s.reg 7 - 1 := by
      simp [hs1]
    obtain ⟨ram2, hcomb, hpres⟩ := ih s1
      (fun r2 hm => hidx r2 (List.mem_cons_of_mem r hm))
      (by
        intro i
        by_cases hc : i = (7 : Fin 8)
        · subst hc; rw [h17]; omega
        · have h : s1.reg i = s.reg i := by
            simp [hs1, Function.update_noteq hc]
          rw [h]; exact hreg i)
      (by rw [h17]; simp only [List.length_cons] at hlen; omega)
    rcases hps : pushSeq rs s1 with ⟨a, t⟩ | ⟨e, t⟩
    swap
    · rw [bind_apply, hps] at hcomb; exact absurd hcomb (by simp)
    have hpr : popRev rs t = .ok () { s1 with ram := ram2 } := by
      rw [bind_apply, hps] at hcomb; exact hcomb
    have hsp1 : s.reg 7 - 1 < 256 := by omega
    have hram2top : ram2 ⟨s.reg 7 - 1, hsp1⟩ = v := by
      have h := hpres ⟨s.reg 7 - 1, hsp1⟩ (by rw [h17])
      rw [h, hs1]
      exact Function.update_same _ _ _
    have hsp : ({ s1 with ram := ram2 } : CPUState).reg 7 < 256 := by
      show s1.reg 7 < 256
      rw [h17]; omega
    have hwv : ({ s1 with ram := ram2 } : CPUState).ram
        ⟨({ s1 with ram := ram2 } : CPUState).reg 7, hsp⟩ = v := by
      have he : (⟨({ s1 with ram := ram2 } : CPUState).reg 7, hsp⟩ : Fin 256)
          = ⟨s.reg 7 - 1, hsp1⟩ := by
        apply Fin.ext
        show s1.reg 7 = s.reg 7 - 1
        exact h17
      rw [he]
      exact hram2top
    have hram : ({ s1 with ram := ram2 } : CPUState).ram
        ⟨({ s1 with ram := ram2 } : CPUState).reg 7, hsp⟩ < 256 := by
      rw [hwv]; omega
    have hs2r : ({ s1 with ram := ram2 } : CPUState).reg
        = Function.update s.reg 7 (s.reg 7 - 1) := rfl
    have hsp2 : Function.update ({ s1 with ram := ram2 } : CPUState).reg ⟨r, hr⟩
        (({ s1 with ram := ram2 } : CPUState).ram
          ⟨({ s1 with ram := ram2 } : CPUState).reg 7, hsp⟩) 7 + 1 < 256 := by
      rw [hwv, hs2r, hvdef, Function.update_eq_self, Function.update_same]
      omega
    have hpop := pop_ok r hr ({ s1 with ram := ram2 }) hsp hram hsp2
    have hfinal : Function.update
        (Function.update ({ s1 with ram := ram2 } : CPUState).reg ⟨r, hr⟩
          (({ s1 with ram := ram2 } : CPUState).ram
            ⟨({ s1 with ram := ram2 } : CPUState).reg 7, hsp⟩)) 7
        (Function.update ({ s1 with ram := ram2 } : CPUState).reg ⟨r, hr⟩
          (({ s1 with ram := ram2 } : CPUState).ram
            ⟨({ s1 with ram := ram2 } : CPUState).reg 7, hsp⟩) 7 + 1)
        = s.reg := by
      rw [hwv, hs2r, hvdef, Function.update_eq_self, Function.update_same,
        Function.update_idem]
      rw [show s.reg 7 - 1 + 1 = s.reg 7 by omega]
      exact Function.update_eq_self _ _
    rw [hfinal] at hpop
    refine ⟨ram2, ?_, ?_⟩
    · have hseq1 : pushSeq (r :: rs) s = .ok () t := by
        rw [pushSeq]
        exact (bind_ok hpush).trans hps
      have hseq2 : popRev (r :: rs) t
          = .ok () { ({ s1 with ram := ram2 } : CPUState) with reg := s.reg } := by
        rw [popRev]
        exact (bind_ok hpr).trans hpop
      rw [bind_ok hseq1, hseq2]
    · intro a ha
      have hane : a ≠ (⟨s.reg 7 - 1, hsp1⟩ : Fin 256) := by
        intro hEq
        rw [hEq] at ha
        simp at ha
        omega
      have h := hpres a (by rw [h17]; omega)
      rw [h, hs1]
      exact Function.update_noteq hane _ _

/-- Witness for C6: pushing registers 0, 3 and 7 of `stStack` and
popping them back in reverse order restores all registers and the stack
pointer. -/
theorem push_pop_mirror_witness :
    ∃ ram2, ((pushSeq [0, 3, 7] >>= fun _ => popRev [0, 3, 7]) stStack
      = .ok () { stStack with ram := ram2 }
      ∧ ∀ a : Fin 256, stStack.reg 7 ≤ a.val → ram2 a = stStack.ram a) :=
  push_pop_mirror [0, 3, 7] stStack (by decide) (by decide) (by decide)

/-- C7: CMP writes only the flags register, setting it to exactly one of
the three values 4 (less), 2 (greater), 1 (equal); and the conditional
jumps respect it: running `CMP R0,R1; JEQ R2` with `R0 = 3 < 5 = R1`
falls through to PC = 5 (the JEQ handler advanced PC by 2 past address
3), while `CMP R0,R1; JNE R2` jumps to 99. -/
theorem cmp_single_flag_and_cond_jumps (s : CPUState) (a b : Nat)
    (ha : a < 8) (hb : b < 8) :
    cmp a b s = .ok () { s with FL := if (s.reg ⟨a, ha⟩ < s.reg ⟨b, hb⟩) then 4
      else if (s.reg ⟨b, hb⟩ < s.reg ⟨a, ha⟩) then 2 else 1 }
    ∧ ((run 2) stCmpJeq).errOf = none
    ∧ ((run 2) stCmpJeq).state.PC = 5
    ∧ ((run 2) stCmpJne).errOf = none
    ∧ ((run 2) stCmpJne).state.PC = 99 :=
  ⟨cmp_spec s a b ha hb, by decide, by decide, by decide, by decide⟩

/-- Witness for C7: CMP on `stCmpJeq` (registers 3 and 5) succeeds and
sets FL according to the three-way comparison, and the two conditional
jump scenarios behave as claimed. -/
theorem cmp_single_flag_and_cond_jumps_witness :
    cmp 0 1 stCmpJeq = .ok () { stCmpJeq with
      FL := if (stCmpJeq.reg ⟨0, by decide⟩ < stCmpJeq.reg ⟨1, by decide⟩) then 4
        else if (stCmpJeq.reg ⟨1, by decide⟩ < stCmpJeq.reg ⟨0, by decide⟩) then 2 else 1 }
    ∧ ((run 2) stCmpJeq).errOf = none
    ∧ ((run 2) stCmpJeq).state.PC = 5
    ∧ ((run 2) stCmpJne).errOf = none
    ∧ ((run 2) stCmpJne).state.PC = 99 :=
  cmp_single_flag_and_cond_jumps stCmpJeq 0 1 (by decide) (by decide)

/-- C8: for every valid register index `r` and byte value `v`, executing
LDI and then reading register `r` yields `v mod 256`. -/
theorem ldi_then_read_mod256 (s : CPUState) (r v : Nat) (hr : r < 8) (hv : v < 256) :
    ((ldi r v >>= fun _ => regRead r) s).valOf = some (v % 256) := by
  have hv2 : (0 : Int) ≤ (v : Int) ∧ (v : Int) < 256 :=
    ⟨Int.ofNat_nonneg v, by exact_mod_cast hv⟩
  rw [bind_apply, ldi, regWrite_lt r hr _ hv2]
  simp [regRead_lt r hr, Nat.mod_eq_of_lt hv]

/-- Witness for C8: storing 77 into register 3 and reading it back
yields 77 mod 256. -/
theorem ldi_then_read_mod256_witness :
    ((ldi 3 77 >>= fun _ => regRead 3) stAdd).valOf = some (77 % 256) :=
  ldi_then_read_mod256 stAdd 3 77 (by decide) (by decide)

/-- C9: the flags-register invariant. FL is 0 at construction; every
dispatch-table handler other than CMP (opcode `0b10100111`) leaves FL
untouched, whether it returns or raises; a successful CMP stores exactly
one of 1, 2, 4; consequently every state reachable by running any loaded
program from a fresh machine has FL in {0, 1, 2, 4}; and on that set the
whole-register test `FL = 1` used by JEQ/JNE coincides with testing the
equal bit. -/
theorem fl_flags_invariant :
    initState.FL = 0
    ∧ (∀ ir h, branch ir = some h → ir ≠ 0b10100111 →
        ∀ nums op_a op_b s, ((callHandler h nums op_a op_b s).state).FL = s.FL)
    ∧ (∀ a b s s2, cmp a b s = .ok () s2 → s2.FL = 1 ∨ s2.FL = 2 ∨ s2.FL = 4)
    ∧ (∀ r : Fin 256 → Nat, ∀ fuel, FLok (((run fuel) { initState with ram := r }).state.FL))
    ∧ (∀ fl, FLok fl → ((fl = 1) ↔ (fl &&& 1 = 1))) :=
  ⟨rfl,
   fun ir h hb hne nums op_a op_b s =>
     FL_callHandler h (presH_branch ir h hb hne) nums op_a op_b s,
   cmp_ok_values,
   fun r fuel => flok_run fuel { initState with ram := r } (Or.inl rfl),
   fun fl hfl => by rcases hfl with h | h | h | h <;> subst h <;> decide⟩

/-- Witness for C9: the invariant instantiated at concrete inputs — the
LDI handler dispatched over the table preserves FL of `stAdd`; the CMP
run on `stCmpJeq` lands in {1, 2, 4}; a two-step run of a loaded CMP
program keeps FL in {0, 1, 2, 4}; and the equal-bit reading of `FL = 1`
holds at FL = 4. -/
theorem fl_flags_invariant_witness :
    ((callHandler (Handler.h2 ldi) 2 0 5 stAdd).state).FL = stAdd.FL
    ∧ (({ stCmpJeq with FL := 4 } : CPUState).FL = 1
        ∨ ({ stCmpJeq with FL := 4 } : CPUState).FL = 2
        ∨ ({ stCmpJeq with FL := 4 } : CPUState).FL = 4)
    ∧ FLok (((run 2) { initState with ram := ramOf [0b10100111, 0, 1] }).state.FL)
    ∧ ((4 : Nat) = 1 ↔ (4 : Nat) &&& 1 = 1) :=
  ⟨fl_flags_invariant.2.1 0b10000010 (Handler.h2 ldi) rfl (by decide) 2 0 5 stAdd,
   fl_flags_invariant.2.2.1 0 1 stCmpJeq { stCmpJeq with FL := 4 } (by decide),
   fl_flags_invariant.2.2.2.1 (ramOf [0b10100111, 0, 1]) 2,
   fl_flags_invariant.2.2.2.2 4 (by decide)⟩

/-- C10: DIV or MOD with a zero divisor raises `ZeroDivisionError` at
the handler, leaving every component of the machine state exactly as it
was; and the error propagates out of the dispatch loop unconverted (the
loop's `except KeyError` handles only failed table lookups): running the
loaded `DIV R0,R1` program with `R1 = 0` ends in `ZeroDivisionError`
with registers, RAM, PC and FL untouched and only IR holding the fetched
DIV opcode. -/
theorem div_mod_by_zero_uncaught (s : CPUState) (a b : Nat)
    (ha : a < 8) (hb : b < 8) (hz : s.reg ⟨b, hb⟩ = 0) :
    div a b s = .err PyErr.zeroDivisionError s
    ∧ mod a b s = .err PyErr.zeroDivisionError s
    ∧ run 5 stDiv0 = .err PyErr.zeroDivisionError { stDiv0 with IR := 0b10100011 } :=
  ⟨by simp [div, alu, aluBody, regRead_lt a ha, regRead_lt b hb, hz],
   by simp [mod, alu, aluBody, regRead_lt a ha, regRead_lt b hb, hz],
   by decide⟩

/-- Witness for C10: DIV and MOD of register 0 by register 1 (holding 0)
in `stDiv0` raise `ZeroDivisionError` with the state unchanged. -/
theorem div_mod_by_zero_uncaught_witness :
    div 0 1 stDiv0 = .err PyErr.zeroDivisionError stDiv0
    ∧ mod 0 1 stDiv0 = .err PyErr.zeroDivisionError stDiv0
    ∧ run 5 stDiv0 = .err PyErr.zeroDivisionError { stDiv0 with IR := 0b10100011 } :=
  div_mod_by_zero_uncaught stDiv0 0 1 (by decide) (by decide) (by decide)

end LS8
